/-
  Verification of the TextTorrent tracker/peer protocol.

  Shallow embedding of `src/tracker.py` and `src/peer.py`:
  * Python `bytes` values are modelled as `List Char` (all protocol data in
    this system is ASCII, so byte/char round-tripping is the identity).
  * Python `str` is Lean `String`; `bytes.decode()` is `String.mk` and
    `str.encode()` is `String.data`.
  * The mutable global registry (`tracker: defaultdict[bytes, set[str]]`)
    becomes explicit state passing over an insertion-ordered association
    list; Python `set` values become duplicate-free lists in insertion
    order (only membership and an arbitrary choice are ever observed).
  * Python exceptions become `Except PyErr`; an uncaught exception is an
    `.error` result that escapes the handler.
  * `random.choice` is modelled by an explicit selection function
    `choose : List Peer → Peer`; theorems that depend on it assume only
    that it returns a member of a nonempty list.
-/
import Mathlib

namespace TextTorrent

/-- Python `bytes`, modelled as a list of characters. -/
abbrev Bytes := List Char

/-- The remote endpoint of a connection as returned by `getpeername()`:
a `(host, port)` pair. `tracker.serve` receives this tuple as `peer`. -/
abbrev Peer := String × Nat

/-- The tracker's registry: `defaultdict[bytes, set[str]]`, modelled as an
insertion-ordered association list from file name to the holder set
(itself a duplicate-free insertion-ordered list). -/
abbrev Registry := List (Bytes × List Peer)

/-- Python exceptions that the embedded code can raise. -/
inductive PyErr where
  | keyError
  | valueError
  | indexError
deriving DecidableEq

/-- `str.encode()`: a string as its character list. -/
def encode (s : String) : Bytes := s.data

/-- `bytes.decode()`: a character list as a string. -/
def decode (b : Bytes) : String := String.mk b

/-- Python `data.split(b" ", 1)`: split at the first space only.  The
result `(before, some after)` models the two-element list, and
`(data, none)` models the one-element list returned when no space
occurs. -/
def split1 : Bytes → Bytes × Option Bytes
  | [] => ([], none)
  | c :: cs =>
    if c = ' ' then ([], some cs)
    else
      let r := split1 cs
      (c :: r.1, r.2)

/-! ## Tracker registry (`src/tracker.py`) -/

/-- Dictionary lookup `tracker.get(file)`: `none` when the key is absent. -/
def lookup : Registry → Bytes → Option (List Peer)
  | [], _ => none
  | (k, v) :: rest, f => if k = f then some v else lookup rest f

/-- Replace the value stored under a key, keeping its position (Python
dicts do not reorder on update); appends when the key is absent. -/
def setKey : Registry → Bytes → List Peer → Registry
  | [], f, v => [(f, v)]
  | (k, w) :: rest, f, v =>
    if k = f then (k, v) :: rest else (k, w) :: setKey rest f v

/-- `defaultdict` subscript `tracker[file]`: returns the stored set, and —
unlike `.get` — inserts a fresh empty set (at the end, Python dicts are
insertion-ordered) when the key is absent.  Returns the possibly grown
registry together with the set. -/
def getDefault (reg : Registry) (f : Bytes) : Registry × List Peer :=
  match lookup reg f with
  | some v => (reg, v)
  | none => (reg ++ [(f, [])], [])

/-- Python `set.add`: membership-based, no duplicates. -/
def setAdd (l : List Peer) (p : Peer) : List Peer :=
  if p ∈ l then l else l ++ [p]

/-- Python `set.remove`: raises `KeyError` when the element is absent. -/
def setRemove (l : List Peer) (p : Peer) : Except PyErr (List Peer) :=
  if p ∈ l then .ok (l.erase p) else .error .keyError

/-- Reply `b"OK "` (the acknowledgement for `ADD`/`REMOVE`). -/
def OKreply : Bytes := encode "OK "

/-- Reply `b"BAD File does not exist"`. -/
def BADnofile : Bytes := encode "BAD File does not exist"

/-- Reply `b"BAD Method not supported"`. -/
def BADmethod : Bytes := encode "BAD Method not supported"

/-- The body of `tracker.serve` after `data.split(b" ", 1)`: structural
match on the split frame, mirroring the Python `match` arm by arm.

* `[b"ADD", file]`: `tracker[file].add(peer)`, reply `b"OK "`.
* `[b"REMOVE", file]`: `tracker[file].remove(peer)` inside
  `try/except ValueError`; `set.remove` raises `KeyError` on a missing
  element, so the handler catches only a `ValueError` and any other
  exception escapes `serve` as an `.error` result.
* `[b"GET_PEER", file]`: `tracker.get(file)` (no default insertion); a
  missing key or an empty (falsy) set replies `BAD`, otherwise the reply
  is `b"OK " + str(peer[0]).encode()` for a chosen member `peer` of the
  set — only the host component of the stored endpoint tuple.
* `[b"LIST_FILES"]`: joins the registry keys with `b"; "`.
* anything else: `b"BAD Method not supported"`.

The returned registry is the state of the global `tracker` dict after the
call, also when an exception escapes (the `defaultdict` insertion done by
`tracker[file]` persists even when the subsequent `remove` raises). -/
def serve1 (choose : List Peer → Peer) (reg : Registry) (peer : Peer) :
    Bytes × Option Bytes → Registry × Except PyErr Bytes
  | (cmd, some file) =>
    if cmd = encode "ADD" then
      let gd := getDefault reg file
      (setKey gd.1 file (setAdd gd.2 peer), .ok OKreply)
    else if cmd = encode "REMOVE" then
      let gd := getDefault reg file
      match setRemove gd.2 peer with
      | .ok s2 => (setKey gd.1 file s2, .ok OKreply)
      | .error .valueError => (gd.1, .ok BADnofile)
      | .error e => (gd.1, .error e)
    else if cmd = encode "GET_PEER" then
      match lookup reg file with
      | some s =>
        if s.isEmpty then (reg, .ok BADnofile)
        else (reg, .ok (encode "OK " ++ encode (choose s).1))
      | none => (reg, .ok BADnofile)
    else (reg, .ok BADmethod)
  | (cmd, none) =>
    if cmd = encode "LIST_FILES" then
      (reg, .ok (encode "OK " ++ List.intercalate (encode "; ") (reg.map Prod.fst)))
    else (reg, .ok BADmethod)

/-- `tracker.serve(peer, data)`: split the frame at the first space and
dispatch. -/
def serve (choose : List Peer → Peer) (reg : Registry) (peer : Peer)
    (data : Bytes) : Registry × Except PyErr Bytes :=
  serve1 choose reg peer (split1 data)

/-! ## Peer file server and orchestrator (`src/peer.py`) -/

/-- The body of `peer.serve_peer` after `data.split(b" ", 1)`.  The local
filesystem is an opaque map `fs` from path to content; `folder` is the
`FOLDER` environment value.  `[b"GET_FILE", file]` opens
`FOLDER + "/" + file.decode()`: a present file replies `b"OK " + content`,
`FileNotFoundError` replies `b"BAD File does not exist"`; every other
frame replies `b"BAD Method not supported"`.  The embedding's type shows
the handler touches nothing but `fs` and the frame: it cannot mutate the
tracker registry nor open outbound connections. -/
def serve_peer1 (fs : String → Option Bytes) (folder : String) :
    Bytes × Option Bytes → Bytes
  | (cmd, some file) =>
    if cmd = encode "GET_FILE" then
      match fs (folder ++ "/" ++ decode file) with
      | some content => encode "OK " ++ content
      | none => BADnofile
    else BADmethod
  | (_, none) => BADmethod

/-- `peer.serve_peer(data)`: split the frame at the first space and
dispatch. -/
def serve_peer (fs : String → Option Bytes) (folder : String)
    (data : Bytes) : Bytes :=
  serve_peer1 fs folder (split1 data)

/-- A Python runtime value as far as `match` literal patterns care:
either a `str` or a `bytes`.  Literal patterns compare with `==`, and a
`str` never equals a `bytes`. -/
inductive PyVal where
  | pystr (s : String)
  | pybytes (b : Bytes)
deriving DecidableEq

/-- Python truthiness of `get_peer`'s result as used by the caller's
guard `if peer and download_file(peer, file)`: `None` and the empty
string are falsy. -/
def pyTruthy : Option String → Bool
  | none => false
  | some s => s != ""

/-- `peer.get_peer`, applied to the reply bytes that `remote_call`
returned for the `GET_PEER` request.  The code splits the reply at the
first space and runs `match result[0].decode()` — a `str` subject —
against the patterns `b"BAD"` (a `bytes` literal, compared by equality
and hence never equal to a `str`), `"OK"`, and `_` (which prints and
returns `None`).  `result[1]` raises `IndexError` when the reply
contained no space. -/
def get_peer (reply : Bytes) : Except PyErr (Option String) :=
  let result := split1 reply
  let status := decode result.1
  if PyVal.pystr status = PyVal.pybytes (encode "BAD") then
    .ok (some "BAD File does not exist")
  else if status = "OK" then
    match result.2 with
    | some payload => .ok (some (decode payload))
    | none => .error .indexError
  else .ok none

/-- `peer.download_file`, applied to the reply bytes that `remote_call`
returned for the `GET_FILE` request.  The local filesystem is passed and
returned explicitly as `store`.  The code unpacks
`status, content = reply.split(b" ", 1)` (a reply without a space raises
`ValueError` at the unpacking), returns `False` without writing when
`status == b"BAD"`, and otherwise writes `content` to
`FOLDER + "/" + file` and returns `True`. -/
def download_file (store : String → Option Bytes) (folder file : String)
    (reply : Bytes) : Except PyErr (Bool × (String → Option Bytes)) :=
  match split1 reply with
  | (status, some content) =>
    if status = encode "BAD" then .ok (false, store)
    else .ok (true, fun p => if p = folder ++ "/" ++ file then some content
                             else store p)
  | (_, none) => .error .valueError

/-- Python `str.split("; ")`, specialized at the literal separator the
code passes: split at every non-overlapping occurrence of `"; "`,
scanning left to right; the result on the empty string is `[""]`.
Stated over the underlying character list (`decode` is applied to each
piece afterwards, matching `data.decode().split("; ")`). -/
def splitSep : Bytes → List Bytes
  | [] => [[]]
  | [c] => [[c]]
  | ';' :: ' ' :: rest => [] :: splitSep rest
  | c :: rest =>
    match splitSep rest with
    | [] => [[c]]
    | h :: t => (c :: h) :: t

/-- `peer.list_files`, applied to the reply bytes that `remote_call`
returned for the `LIST_FILES` request and to the local directory listing
`listdir(FOLDER)`.  The code unpacks `_, data = reply.split(b" ", 1)`
(raising `ValueError` when no space occurs), splits the decoded payload
on `"; "`, and keeps the names not in the local listing. -/
def list_files (localFiles : List String) (reply : Bytes) :
    Except PyErr (List String) :=
  match split1 reply with
  | (_, some data) =>
    let remote := (splitSep data).map decode
    .ok (remote.filter (fun f => decide (f ∉ localFiles)))
  | (_, none) => .error .valueError

/-- The split frames that `tracker.serve`'s `match` recognizes: a
two-element split whose command token is `ADD`, `REMOVE` or `GET_PEER`,
or a one-element split (`LIST_FILES` takes no argument). -/
abbrev trackerRecognized : Bytes × Option Bytes → Prop
  | (cmd, some _) =>
    cmd = encode "ADD" ∨ cmd = encode "REMOVE" ∨ cmd = encode "GET_PEER"
  | (cmd, none) => cmd = encode "LIST_FILES"

/-- The split frames that `peer.serve_peer`'s `match` recognizes: a
two-element split whose command token is `GET_FILE`. -/
abbrev peerRecognized : Bytes × Option Bytes → Prop
  | (cmd, some _) => cmd = encode "GET_FILE"
  | (_, none) => False

/-! ## Basic lemmas: encoding and frame splitting -/

theorem decode_encode (s : String) : decode (encode s) = s := rfl

theorem split1_frame (w rest : Bytes) (h : ' ' ∉ w) :
    split1 (w ++ ' ' :: rest) = (w, some rest) := by
  induction w with
  | nil => simp [split1]
  | cons c cs ih =>
    have hc : ¬ (c = ' ') := by
      intro hcc
      exact h (hcc ▸ List.mem_cons_self c cs)
    have hcs : ' ' ∉ cs := fun hm => h (List.mem_cons_of_mem c hm)
    simp [split1, hc, ih hcs]

theorem split1_ADD (rest : Bytes) :
    split1 (encode "ADD " ++ rest) = (encode "ADD", some rest) :=
  split1_frame (encode "ADD") rest (by decide)

theorem split1_REMOVE (rest : Bytes) :
    split1 (encode "REMOVE " ++ rest) = (encode "REMOVE", some rest) :=
  split1_frame (encode "REMOVE") rest (by decide)

theorem split1_GET_PEER (rest : Bytes) :
    split1 (encode "GET_PEER " ++ rest) = (encode "GET_PEER", some rest) :=
  split1_frame (encode "GET_PEER") rest (by decide)

theorem split1_GET_FILE (rest : Bytes) :
    split1 (encode "GET_FILE " ++ rest) = (encode "GET_FILE", some rest) :=
  split1_frame (encode "GET_FILE") rest (by decide)

theorem split1_BAD (rest : Bytes) :
    split1 (encode "BAD " ++ rest) = (encode "BAD", some rest) :=
  split1_frame (encode "BAD") rest (by decide)

theorem split1_OK (rest : Bytes) :
    split1 (encode "OK " ++ rest) = (encode "OK", some rest) :=
  split1_frame (encode "OK") rest (by decide)

theorem split1_LIST_FILES :
    split1 (encode "LIST_FILES") = (encode "LIST_FILES", none) := by decide

/-! ## Unfolding equations for the handlers at each command -/

theorem serve_ADD (choose : List Peer → Peer) (reg : Registry)
    (peer : Peer) (file : Bytes) :
    serve choose reg peer (encode "ADD " ++ file)
      = (setKey (getDefault reg file).1 file
          (setAdd (getDefault reg file).2 peer), .ok OKreply) := rfl

theorem serve_GET_PEER (choose : List Peer → Peer) (reg : Registry)
    (peer : Peer) (file : Bytes) :
    serve choose reg peer (encode "GET_PEER " ++ file)
      = (match lookup reg file with
         | some s =>
           if s.isEmpty then (reg, .ok BADnofile)
           else (reg, .ok (encode "OK " ++ encode (choose s).1))
         | none => (reg, .ok BADnofile)) := rfl

theorem serve_LIST_FILES (choose : List Peer → Peer) (reg : Registry)
    (peer : Peer) :
    serve choose reg peer (encode "LIST_FILES")
      = (reg, .ok (encode "OK "
          ++ List.intercalate (encode "; ") (reg.map Prod.fst))) := rfl

theorem serve_peer_GET_FILE (fs : String → Option Bytes) (folder : String)
    (file : Bytes) :
    serve_peer fs folder (encode "GET_FILE " ++ file)
      = (match fs (folder ++ "/" ++ decode file) with
         | some content => encode "OK " ++ content
         | none => BADnofile) := rfl

/-! ## Registry lemmas -/

theorem lookup_isSome_append (reg t : Registry) (f : Bytes)
    (h : (lookup reg f).isSome = true) :
    (lookup (reg ++ t) f).isSome = true := by
  induction reg with
  | nil => simp [lookup] at h
  | cons kv rest ih =>
    obtain ⟨k, v⟩ := kv
    simp only [List.cons_append, lookup] at h ⊢
    by_cases hk : k = f
    · rw [if_pos hk]
      rfl
    · rw [if_neg hk] at h ⊢
      exact ih h

theorem lookup_isSome_setKey (reg : Registry) (g : Bytes) (v : List Peer)
    (f : Bytes) (h : (lookup reg f).isSome = true) :
    (lookup (setKey reg g v) f).isSome = true := by
  induction reg with
  | nil => simp [lookup] at h
  | cons kv rest ih =>
    obtain ⟨k, w⟩ := kv
    simp only [setKey]
    by_cases hg : k = g
    · rw [if_pos hg]
      simp only [lookup] at h ⊢
      by_cases hk : k = f
      · rw [if_pos hk]
        rfl
      · rw [if_neg hk] at h ⊢
        exact h
    · rw [if_neg hg]
      simp only [lookup] at h ⊢
      by_cases hk : k = f
      · rw [if_pos hk]
        rfl
      · rw [if_neg hk] at h ⊢
        exact ih h

theorem lookup_isSome_getDefault (reg : Registry) (g f : Bytes)
    (h : (lookup reg f).isSome = true) :
    (lookup (getDefault reg g).1 f).isSome = true := by
  unfold getDefault
  cases hg : lookup reg g with
  | some v => exact h
  | none => exact lookup_isSome_append reg _ f h

theorem lookup_append_single (reg : Registry) (f : Bytes) (v : List Peer)
    (h : lookup reg f = none) :
    lookup (reg ++ [(f, v)]) f = some v := by
  induction reg with
  | nil => simp [lookup]
  | cons kv rest ih =>
    obtain ⟨k, w⟩ := kv
    simp only [lookup] at h
    by_cases hk : k = f
    · rw [if_pos hk] at h
      exact absurd h (by simp)
    · rw [if_neg hk] at h
      simp only [List.cons_append, lookup]
      rw [if_neg hk]
      exact ih h

theorem setKey_append_single (reg : Registry) (f : Bytes)
    (v w : List Peer) (h : lookup reg f = none) :
    setKey (reg ++ [(f, v)]) f w = reg ++ [(f, w)] := by
  induction reg with
  | nil => simp [setKey]
  | cons kv rest ih =>
    obtain ⟨k, u⟩ := kv
    simp only [lookup] at h
    by_cases hk : k = f
    · rw [if_pos hk] at h
      exact absurd h (by simp)
    · rw [if_neg hk] at h
      simp only [List.cons_append, setKey]
      rw [if_neg hk]
      exact congrArg _ (ih h)

theorem lookup_none_not_mem_keys (reg : Registry) (f : Bytes)
    (h : lookup reg f = none) : f ∉ reg.map Prod.fst := by
  induction reg with
  | nil => simp
  | cons kv rest ih =>
    obtain ⟨k, v⟩ := kv
    simp only [lookup] at h
    by_cases hk : k = f
    · rw [if_pos hk] at h
      exact absurd h (by simp)
    · rw [if_neg hk] at h
      simp only [List.map_cons, List.mem_cons]
      rintro (hf | hf)
      · exact hk hf.symm
      · exact ih h hf

/-! ## Claims -/

/-- C1: the claim says a `REMOVE` whose requesting peer is not in the
named file's holder set (including an unknown file) yields the reply
`BAD "File does not exist"` and never a propagated exception.  The code
disagrees: `set.remove` raises `KeyError`, the handler catches only
`ValueError`, so the exception escapes `serve` uncaught — shown here at
two concrete failing inputs (unknown file, and known file whose holder
set does not contain the requester).  The unknown-file case also shows
the `defaultdict` access inserting the key before the raise. -/
theorem C1_remove_uncaught_keyError :
    serve (fun l => l.headD ("", 0)) [] ("10.0.0.1", 5000)
      (encode "REMOVE a.txt")
      = ([(encode "a.txt", [])], .error .keyError)
  ∧ serve (fun l => l.headD ("", 0))
      [(encode "a.txt", [("10.0.0.2", 4000)])] ("10.0.0.1", 5000)
      (encode "REMOVE a.txt")
      = ([(encode "a.txt", [("10.0.0.2", 4000)])], .error .keyError) :=
  ⟨rfl, rfl⟩

/-- C2: for a `GET_PEER` reply whose status token is `BAD`, `get_peer`
returns `None` — falsy under the caller's guard
`if peer and download_file(...)`, so no download is attempted; for a
reply whose status token is `OK`, it returns the decoded payload after
the first space, the holder's address. -/
theorem C2_get_peer_reply_cases (rest : Bytes) :
    (get_peer (encode "BAD " ++ rest) = .ok none ∧ pyTruthy none = false)
  ∧ get_peer (encode "OK " ++ rest) = .ok (some (decode rest)) :=
  ⟨⟨rfl, rfl⟩, rfl⟩

/-- C6: a `GET_FILE` reply whose status token is `BAD` makes
`download_file` return `False` with the local store untouched; a reply
whose status token is `OK` makes it write the payload after the first
space verbatim to `FOLDER + "/" + file` and return `True`. -/
theorem C6_download_file_reply_cases (store : String → Option Bytes)
    (folder file : String) (rest : Bytes) :
    download_file store folder file (encode "BAD " ++ rest)
      = .ok (false, store)
  ∧ download_file store folder file (encode "OK " ++ rest)
      = .ok (true, fun p => if p = folder ++ "/" ++ file then some rest
                            else store p) :=
  ⟨rfl, rfl⟩

/-- C3 counterexample: the claim says two `ADD`s for the same file "from
the same peer address" leave exactly one holder, with the peer's
identity being "its connection's remote address only, not its port".
The code stores the whole `getpeername()` tuple: two `ADD "a.txt"`
frames from the same address `10.0.0.1` but different ports 5000 and
5001 leave two holders. -/
theorem C3_counterexample_same_address_two_ports :
    lookup
      (serve (fun l => l.headD ("", 0))
        (serve (fun l => l.headD ("", 0)) [] ("10.0.0.1", 5000)
          (encode "ADD a.txt")).1
        ("10.0.0.1", 5001) (encode "ADD a.txt")).1
      (encode "a.txt")
      = some [("10.0.0.1", 5000), ("10.0.0.1", 5001)] := rfl

/-- C3 (amended): two `ADD` frames for the same file from the same
remote endpoint — the full `getpeername()` tuple of address and port —
leave exactly one holder recorded for that file; the peer's identity is
that endpoint tuple, so the same address on a different port counts as
a distinct holder. -/
theorem C3_add_idempotent_per_endpoint (choose : List Peer → Peer)
    (reg : Registry) (peer : Peer) (file : Bytes)
    (h : lookup reg file = none) :
    lookup (serve choose
      (serve choose reg peer (encode "ADD " ++ file)).1
      peer (encode "ADD " ++ file)).1 file = some [peer] := by
  have hgd : getDefault reg file = (reg ++ [(file, [])], []) := by
    unfold getDefault
    rw [h]
  have h1 : (serve choose reg peer (encode "ADD " ++ file)).1
      = reg ++ [(file, [peer])] := by
    rw [serve_ADD, hgd]
    exact setKey_append_single reg file [] [peer] h
  have h2 : lookup (reg ++ [(file, [peer])]) file = some [peer] :=
    lookup_append_single reg file [peer] h
  have hgd2 : getDefault (reg ++ [(file, [peer])]) file
      = (reg ++ [(file, [peer])], [peer]) := by
    unfold getDefault
    rw [h2]
  have hsa : setAdd [peer] peer = [peer] := by simp [setAdd]
  rw [h1, serve_ADD, hgd2]
  show lookup (setKey (reg ++ [(file, [peer])]) file (setAdd [peer] peer))
    file = some [peer]
  rw [hsa, setKey_append_single reg file [peer] [peer] h]
  exact h2

/-- C3 witness: the amended idempotence at a concrete endpoint. -/
theorem C3_add_idempotent_witness :
    lookup (serve (fun l => l.headD ("", 0))
      (serve (fun l => l.headD ("", 0)) [] ("10.0.0.1", 5000)
        (encode "ADD a.txt")).1
      ("10.0.0.1", 5000) (encode "ADD a.txt")).1 (encode "a.txt")
      = some [("10.0.0.1", 5000)] :=
  C3_add_idempotent_per_endpoint (fun l => l.headD ("", 0)) []
    ("10.0.0.1", 5000) (encode "a.txt") rfl

/-- C4: for a `GET_PEER` frame, when the named file's holder set is
non-empty the reply is `OK ` followed by the address component of a
member of that set (the one `random.choice` picked), and the registry
is unchanged; when the set is empty or the file unknown, the reply is
`BAD File does not exist`.  The selection function is assumed only to
return a member of a nonempty list, as `random.choice` does. -/
theorem C4_get_peer_reply (choose : List Peer → Peer) (reg : Registry)
    (peer : Peer) (file : Bytes)
    (hchoose : ∀ l : List Peer, l ≠ [] → choose l ∈ l) :
    (∀ s, lookup reg file = some s → s ≠ [] →
       choose s ∈ s ∧
       serve choose reg peer (encode "GET_PEER " ++ file)
         = (reg, .ok (encode "OK " ++ encode (choose s).1)))
  ∧ (lookup reg file = none ∨ lookup reg file = some [] →
       serve choose reg peer (encode "GET_PEER " ++ file)
         = (reg, .ok BADnofile)) := by
  constructor
  · intro s hs hne
    refine ⟨hchoose s hne, ?_⟩
    rw [serve_GET_PEER, hs]
    cases s with
    | nil => exact absurd rfl hne
    | cons a as => rfl
  · intro hcase
    rw [serve_GET_PEER]
    rcases hcase with h | h
    · rw [h]
    · rw [h]
      rfl

/-- C4 witness: a singleton holder set yields its member's address; an
unknown file yields `BAD`. -/
theorem C4_get_peer_witness :
    ((("10.0.0.1", 5000) : Peer) ∈ ([("10.0.0.1", 5000)] : List Peer)
      ∧ serve (fun l => l.headD ("", 0))
          [(encode "a.txt", [("10.0.0.1", 5000)])] ("9.9.9.9", 1)
          (encode "GET_PEER a.txt")
          = ([(encode "a.txt", [("10.0.0.1", 5000)])],
             .ok (encode "OK 10.0.0.1")))
  ∧ serve (fun l => l.headD ("", 0)) [] ("9.9.9.9", 1)
      (encode "GET_PEER a.txt") = ([], .ok BADnofile) := by
  have hch : ∀ l : List Peer, l ≠ [] → l.headD ("", 0) ∈ l := by
    intro l hl
    cases l with
    | nil => exact absurd rfl hl
    | cons a as => exact List.mem_cons_self a as
  constructor
  · exact (C4_get_peer_reply (fun l => l.headD ("", 0))
      [(encode "a.txt", [("10.0.0.1", 5000)])] ("9.9.9.9", 1)
      (encode "a.txt") hch).1 [("10.0.0.1", 5000)] rfl (by decide)
  · exact (C4_get_peer_reply (fun l => l.headD ("", 0)) [] ("9.9.9.9", 1)
      (encode "a.txt") hch).2 (Or.inl rfl)

/-- C5: once a file name is a registry key it stays a key under every
`serve` call (the sets may empty out, the key is never deleted), and in
the concrete scenario `ADD "a.txt"` then `REMOVE "a.txt"` from the same
peer, `GET_PEER "a.txt"` replies `BAD File does not exist` while
`LIST_FILES` still lists `a.txt`. -/
theorem C5_registry_keys_persist :
    (∀ (choose : List Peer → Peer) (reg : Registry) (peer : Peer)
       (data f : Bytes), (lookup reg f).isSome = true →
       (lookup (serve choose reg peer data).1 f).isSome = true)
  ∧ ((serve (fun l => l.headD ("", 0))
        (serve (fun l => l.headD ("", 0))
          (serve (fun l => l.headD ("", 0)) [] ("10.0.0.1", 5000)
            (encode "ADD a.txt")).1
          ("10.0.0.1", 5000) (encode "REMOVE a.txt")).1
        ("10.0.0.1", 5000) (encode "GET_PEER a.txt")).2 = .ok BADnofile
     ∧ (serve (fun l => l.headD ("", 0))
          (serve (fun l => l.headD ("", 0))
            (serve (fun l => l.headD ("", 0)) [] ("10.0.0.1", 5000)
              (encode "ADD a.txt")).1
            ("10.0.0.1", 5000) (encode "REMOVE a.txt")).1
          ("10.0.0.1", 5000) (encode "LIST_FILES")).2
        = .ok (encode "OK a.txt")) := by
  refine ⟨?_, rfl, rfl⟩
  intro choose reg peer data f h
  unfold serve
  rcases hp : split1 data with ⟨cmd, arg⟩
  cases arg with
  | none =>
    simp only [serve1]
    by_cases hl : cmd = encode "LIST_FILES"
    · rw [if_pos hl]
      exact h
    · rw [if_neg hl]
      exact h
  | some x =>
    simp only [serve1]
    by_cases ha : cmd = encode "ADD"
    · rw [if_pos ha]
      exact lookup_isSome_setKey _ _ _ _ (lookup_isSome_getDefault reg x f h)
    · rw [if_neg ha]
      by_cases hr : cmd = encode "REMOVE"
      · rw [if_pos hr]
        cases hsr : setRemove (getDefault reg x).2 peer with
        | ok s2 =>
          exact lookup_isSome_setKey _ _ _ _
            (lookup_isSome_getDefault reg x f h)
        | error e =>
          cases e <;> exact lookup_isSome_getDefault reg x f h
      · rw [if_neg hr]
        by_cases hg : cmd = encode "GET_PEER"
        · rw [if_pos hg]
          cases hl : lookup reg x with
          | none => exact h
          | some s =>
            cases s with
            | nil => exact h
            | cons a as => exact h
        · rw [if_neg hg]
          exact h

/-- C5 witness: the key-persistence invariant at a concrete registry. -/
theorem C5_registry_keys_persist_witness :
    (lookup (serve (fun l => l.headD ("", 0))
      [(encode "a.txt", [("10.0.0.1", 5000)])] ("10.0.0.2", 6000)
      (encode "ADD b.txt")).1 (encode "a.txt")).isSome = true :=
  C5_registry_keys_persist.1 _ _ _ _ _ rfl

/-- C7: `serve_peer` answers `GET_FILE` with `OK ` plus the raw bytes of
the named file when the local store has it, with `BAD File does not
exist` when opening raises `FileNotFoundError`, and answers every other
frame with `BAD Method not supported`.  The handler is embedded as a
pure function of the local store and the frame — it has no access to
the tracker registry and opens no outbound connection. -/
theorem C7_serve_peer_cases (fs : String → Option Bytes) (folder : String)
    (file data : Bytes) :
    (∀ content, fs (folder ++ "/" ++ decode file) = some content →
       serve_peer fs folder (encode "GET_FILE " ++ file)
         = encode "OK " ++ content)
  ∧ (fs (folder ++ "/" ++ decode file) = none →
       serve_peer fs folder (encode "GET_FILE " ++ file) = BADnofile)
  ∧ (¬ peerRecognized (split1 data) → serve_peer fs folder data = BADmethod) := by
  refine ⟨?_, ?_, ?_⟩
  · intro content hc
    rw [serve_peer_GET_FILE, hc]
  · intro hc
    rw [serve_peer_GET_FILE, hc]
  · intro hd
    unfold serve_peer
    rcases hp : split1 data with ⟨cmd, arg⟩
    have hd' : ¬ peerRecognized (cmd, arg) := hp ▸ hd
    cases arg with
    | none => rfl
    | some x =>
      simp only [serve_peer1]
      rw [if_neg hd']

/-- C7 witness: the three reply cases at concrete stores and frames. -/
theorem C7_serve_peer_witness :
    serve_peer (fun _ => some (encode "hello")) "Files"
      (encode "GET_FILE a.txt") = encode "OK hello"
  ∧ serve_peer (fun _ => none) "Files" (encode "GET_FILE a.txt")
      = BADnofile
  ∧ serve_peer (fun _ => none) "Files" (encode "PUT_FILE a.txt")
      = BADmethod :=
  ⟨(C7_serve_peer_cases (fun _ => some (encode "hello")) "Files"
      (encode "a.txt") (encode "x")).1 (encode "hello") rfl,
   (C7_serve_peer_cases (fun _ => none) "Files" (encode "a.txt")
      (encode "x")).2.1 rfl,
   (C7_serve_peer_cases (fun _ => none) "Files" (encode "a.txt")
      (encode "PUT_FILE a.txt")).2.2
     (by
       show ¬ (encode "PUT_FILE" = encode "GET_FILE")
       decide)⟩

/-- C8: a frame that does not match a recognized command with its
required argument shape — an unknown token, a known token without its
argument, or `LIST_FILES` with one — draws `BAD Method not supported`
from the tracker's `serve`; likewise any frame other than `GET_FILE`
with an argument draws it from the peer's `serve_peer`. -/
theorem C8_unrecognized_frames (choose : List Peer → Peer)
    (reg : Registry) (peer : Peer) (fs : String → Option Bytes)
    (folder : String) (data1 data2 : Bytes)
    (h1 : ¬ trackerRecognized (split1 data1))
    (h2 : ¬ peerRecognized (split1 data2)) :
    (serve choose reg peer data1).2 = .ok BADmethod
  ∧ serve_peer fs folder data2 = BADmethod := by
  constructor
  · unfold serve
    rcases hp : split1 data1 with ⟨cmd, arg⟩
    have h1' : ¬ trackerRecognized (cmd, arg) := hp ▸ h1
    cases arg with
    | none =>
      simp only [serve1]
      rw [if_neg h1']
    | some x =>
      have ha : ¬ (cmd = encode "ADD") := fun hc => h1' (Or.inl hc)
      have hr : ¬ (cmd = encode "REMOVE") :=
        fun hc => h1' (Or.inr (Or.inl hc))
      have hg : ¬ (cmd = encode "GET_PEER") :=
        fun hc => h1' (Or.inr (Or.inr hc))
      simp only [serve1]
      rw [if_neg ha, if_neg hr, if_neg hg]
  · unfold serve_peer
    rcases hp : split1 data2 with ⟨cmd, arg⟩
    have h2' : ¬ peerRecognized (cmd, arg) := hp ▸ h2
    cases arg with
    | none => rfl
    | some x =>
      simp only [serve_peer1]
      rw [if_neg h2']

/-- C8 witness: an unknown command token at both servers. -/
theorem C8_unrecognized_witness :
    (serve (fun l => l.headD ("", 0)) [] ("1.2.3.4", 1)
      (encode "FOO bar")).2 = .ok BADmethod
  ∧ serve_peer (fun _ => none) "Files" (encode "FOO bar") = BADmethod :=
  C8_unrecognized_frames (fun l => l.headD ("", 0)) [] ("1.2.3.4", 1)
    (fun _ => none) "Files" (encode "FOO bar") (encode "FOO bar")
    (by
      show ¬ (encode "FOO" = encode "ADD" ∨ encode "FOO" = encode "REMOVE"
        ∨ encode "FOO" = encode "GET_PEER")
      decide)
    (by
      show ¬ (encode "FOO" = encode "GET_FILE")
      decide)

/-- C9: `list_files` splits the `LIST_FILES` payload on `"; "` and
returns exactly the split names that are not in the local store: a name
is in the result precisely when it is among the split names and not
local. -/
theorem C9_list_files_set_difference (localFiles : List String)
    (payload : Bytes) :
    ∃ l, list_files localFiles (encode "OK " ++ payload) = .ok l
      ∧ ∀ f, f ∈ l ↔ f ∈ (splitSep payload).map decode ∧ f ∉ localFiles := by
  refine ⟨((splitSep payload).map decode).filter
    (fun f => decide (f ∉ localFiles)), rfl, ?_⟩
  intro f
  rw [List.mem_filter]
  simp

/-- C10: `GET_PEER` and `LIST_FILES` leave the registry unchanged; in
particular `GET_PEER` for an unknown file (the code uses `.get`, not the
`defaultdict` subscript) creates no entry, so the name is still not
among the keys that a later `LIST_FILES` would join. -/
theorem C10_queries_leave_registry_unchanged (choose : List Peer → Peer)
    (reg : Registry) (peer : Peer) (file : Bytes) :
    (serve choose reg peer (encode "GET_PEER " ++ file)).1 = reg
  ∧ (serve choose reg peer (encode "LIST_FILES")).1 = reg
  ∧ (lookup reg file = none →
       lookup (serve choose reg peer (encode "GET_PEER " ++ file)).1 file
         = none
       ∧ file ∉ ((serve choose reg peer
           (encode "GET_PEER " ++ file)).1).map Prod.fst) := by
  have hgp : (serve choose reg peer (encode "GET_PEER " ++ file)).1 = reg := by
    rw [serve_GET_PEER]
    cases hl : lookup reg file with
    | none => rfl
    | some s =>
      cases s with
      | nil => rfl
      | cons a as => rfl
  refine ⟨hgp, ?_, ?_⟩
  · rw [serve_LIST_FILES]
  · intro h
    rw [hgp]
    exact ⟨h, lookup_none_not_mem_keys reg file h⟩

/-- C10 witness: `GET_PEER` for an unknown file against a non-empty
registry. -/
theorem C10_queries_witness :
    (serve (fun l => l.headD ("", 0))
      [(encode "b.txt", [("10.0.0.1", 5000)])] ("1", 1)
      (encode "GET_PEER a.txt")).1
      = [(encode "b.txt", [("10.0.0.1", 5000)])]
  ∧ lookup (serve (fun l => l.headD ("", 0))
      [(encode "b.txt", [("10.0.0.1", 5000)])] ("1", 1)
      (encode "GET_PEER a.txt")).1 (encode "a.txt") = none
  ∧ encode "a.txt" ∉ ((serve (fun l => l.headD ("", 0))
      [(encode "b.txt", [("10.0.0.1", 5000)])] ("1", 1)
      (encode "GET_PEER a.txt")).1).map Prod.fst :=
  ⟨(C10_queries_leave_registry_unchanged (fun l => l.headD ("", 0))
      [(encode "b.txt", [("10.0.0.1", 5000)])] ("1", 1)
      (encode "a.txt")).1,
   ((C10_queries_leave_registry_unchanged (fun l => l.headD ("", 0))
      [(encode "b.txt", [("10.0.0.1", 5000)])] ("1", 1)
      (encode "a.txt")).2.2 rfl).1,
   ((C10_queries_leave_registry_unchanged (fun l => l.headD ("", 0))
      [(encode "b.txt", [("10.0.0.1", 5000)])] ("1", 1)
      (encode "a.txt")).2.2 rfl).2⟩

end TextTorrent
